import Mathlib

/-!
Verification of the ETL pipeline in `src/etl/` (config.py, utils.py,
transformers.py, loaders.py, main.py).

The Python code is shallowly embedded: DataFrames become lists of records,
per-row `.apply` becomes structural recursion returning `Option`/`Except`
(a raised exception makes the whole transform fail), and Python string
primitives (`str.split`, `str.replace`, `str.strip`, `str.lower`, `int(...)`)
are modelled by executable functions on `List Char`.

Floating point: every duration the program computes is `H*60 + M + S/60`
minutes, an exact multiple of 1/60.  The embedding carries durations as the
integer number of sixtieths of a minute (`_x60` fields); `toMinutes` maps
that integer to the rational value the spec talks about.  For comparisons
against an integer threshold the rational model agrees with Python's float
model, because the gap between distinct representable durations (1/60) is
astronomically larger than double rounding error.
-/

/-- Python `str.strip` whitespace set (ASCII part): space, \t, \n, \v, \f, \r. -/
def isPyWs (c : Char) : Bool := c.toNat = 32 || (9 ≤ c.toNat && c.toNat ≤ 13)

/-- Strip leading and trailing whitespace from a char list (Python `str.strip`). -/
def pyStripList (l : List Char) : List Char :=
  (l.dropWhile isPyWs).rdropWhile isPyWs

/-- Python `str.strip`. -/
def pyStrip (s : String) : String := ⟨pyStripList s.data⟩

/-- Python `str.lower` (ASCII model; the emails and names in scope are ASCII). -/
def pyLower (s : String) : String := ⟨s.data.map Char.toLower⟩

/-- `normalize_email` from utils.py: `email.lower().strip()`. -/
def normalize_email (email : String) : String := pyStrip (pyLower email)

/-- `normalize_name` from utils.py: `name.strip()`. -/
def normalize_name (name : String) : String := pyStrip name

/-- Python `str.split(sep)` for a one-character separator, on char lists.
Keeps empty segments, as Python does. -/
def pySplitCharList (sep : Char) : List Char → List (List Char)
  | [] => [[]]
  | c :: rest =>
    if c = sep then [] :: pySplitCharList sep rest
    else
      match pySplitCharList sep rest with
      | [] => [[c]]
      | g :: gs => (c :: g) :: gs

/-- Python `s.split(sep)` for a one-character separator. -/
def pySplit (s : String) (sep : Char) : List String :=
  (pySplitCharList sep s.data).map String.mk

/-- Digit string as accepted by Python `int(...)`: nonempty decimal digits,
with single underscores allowed strictly between digits (PEP 515). -/
def udigits : List Char → Bool
  | [] => false
  | [c] => c.isDigit
  | c :: d :: rest =>
    c.isDigit && (if d = '_' then !rest.isEmpty && udigits rest else udigits (d :: rest))

/-- Decimal value of a digit list (most significant first). -/
def natLit (l : List Char) : Nat :=
  l.foldl (fun a c => 10 * a + (c.toNat - 48)) 0

/-- Python `int(str)`: strips whitespace, accepts an optional sign followed by
digits (underscores between digits allowed); anything else raises `ValueError`,
modelled as `none`. -/
def pyInt? (s : String) : Option Int :=
  match pyStripList s.data with
  | '+' :: ds => if udigits ds then some (natLit (ds.filter (fun c => c ≠ '_'))) else none
  | '-' :: ds => if udigits ds then some (-(natLit (ds.filter (fun c => c ≠ '_')) : Int)) else none
  | ds => if udigits ds then some (natLit (ds.filter (fun c => c ≠ '_'))) else none

/-- `parse_duration_to_minutes` from utils.py:
`parts = duration_str.split(":"); int(parts[0])*60 + int(parts[1]) + int(parts[2])/60`.
Indexing `parts[0..2]` raises `IndexError` when fewer than three segments exist;
segments past the third are silently ignored.  The float result is returned
exactly, as the integer number of sixtieths of a minute (i.e. seconds). -/
def parse_duration_to_minutes_x60 (duration_str : String) : Option Int :=
  match pySplit duration_str ':' with
  | p0 :: p1 :: p2 :: _ => do
    let hours ← pyInt? p0
    let minutes ← pyInt? p1
    let seconds ← pyInt? p2
    pure (hours * 3600 + minutes * 60 + seconds)
  | _ => none

/-- The rational number of minutes denoted by an `_x60` duration value. -/
def toMinutes (x : Int) : Rat := (x : Rat) / 60

/-- A calendar date as produced by `pd.to_datetime` with an explicit format. -/
structure PyDate where
  year : Nat
  month : Nat
  day : Nat
deriving DecidableEq, Repr

/-- Month abbreviations accepted by the `%b` format directive. -/
def monthAbbrevs : List String :=
  ["Jan", "Feb", "Mar", "Apr", "May", "Jun", "Jul", "Aug", "Sep", "Oct", "Nov", "Dec"]

/-- The `%d` directive: one or two decimal digits. -/
def parseDayField (dstr : String) : Option Nat :=
  if (!dstr.data.isEmpty && dstr.data.all Char.isDigit && decide (dstr.data.length ≤ 2)) = true
  then some (natLit dstr.data) else none

/-- The `%Y` directive: exactly four decimal digits. -/
def parseYearField (y : String) : Option Nat :=
  if (decide (y.data.length = 4) && y.data.all Char.isDigit) = true
  then some (natLit y.data) else none

/-- The `%b` directive: a month abbreviation, mapped to 1..12. -/
def monthFromAbbrev (mon : String) : Option Nat :=
  (monthAbbrevs.findIdx? (fun a => a == mon)).map (· + 1)

/-- `pd.to_datetime(s, format="%d-%b-%Y")`: day (1-2 digits, 1..31), month
abbreviation, 4-digit year.  (Day-in-month upper bounds per month are not
modelled; no claim depends on them.)  A failed parse raises, modelled `none`. -/
def parseDMonY (s : String) : Option PyDate :=
  match pySplit s '-' with
  | [d, mon, y] => do
    let dv ← parseDayField d
    let mv ← monthFromAbbrev mon
    let yv ← parseYearField y
    if (decide (1 ≤ dv) && decide (dv ≤ 31)) = true then some ⟨yv, mv, dv⟩ else none
  | _ => none

/-- Decimal digit character of `n % 10`. -/
def digitChar (n : Nat) : Char := Char.ofNat (48 + n % 10)

/-- Zero-padded 2-digit decimal rendering (`%m`, `%d` in strftime), exact for
`n ≤ 99`, which parsed months and days satisfy. -/
def pad2 (n : Nat) : String := ⟨[digitChar (n / 10), digitChar n]⟩

/-- Zero-padded 4-digit decimal rendering (`%Y` in strftime), exact for
`n ≤ 9999`, which parsed 4-digit years satisfy. -/
def pad4 (n : Nat) : String := ⟨[digitChar (n / 1000), digitChar (n / 100), digitChar (n / 10), digitChar n]⟩

/-- `date.strftime("%Y%m%d")`. -/
def dateKey (d : PyDate) : String := pad4 d.year ++ pad2 d.month ++ pad2 d.day

/-- `Path(filename).name`: the final `/`-separated component. -/
def pathName (p : String) : String := (pySplit p '/').getLastD ("")

/-- `Path(filename).stem`: the final component minus its last suffix.  A name
whose only dot is a leading dot has no suffix. -/
def pathStem (p : String) : String :=
  let name := pathName p
  match pySplitCharList '.' name.data with
  | [] => name
  | [_] => name
  | [[], _] => name
  | parts => String.intercalate (".") (parts.dropLast.map String.mk)

/-- `Path(filepath).parent.name`: the second-to-last `/`-separated component
(empty when the path has no directory part). -/
def parentName (p : String) : String :=
  ((pySplit p '/').dropLast).getLastD ("")

/-- `extract_date_from_filename` from utils.py:
`pd.to_datetime(Path(filename).stem, format="%d-%b-%Y")`. -/
def extract_date_from_filename (filename : String) : Option PyDate :=
  parseDMonY (pathStem filename)

/-- Core of Python `str.replace(pat, rep)` for the nonempty pattern
`p :: ps`, scanning left to right and replacing non-overlapping occurrences.
`fuel` is an upper bound on the scanned length, making the recursion
structural; it is instantiated with the list's length. -/
def replaceListAux (p : Char) (ps rep : List Char) : Nat → List Char → List Char
  | _, [] => []
  | 0, l => l
  | fuel + 1, c :: rest =>
    if p = c && ps.isPrefixOf rest then
      rep ++ replaceListAux p ps rep fuel (rest.drop ps.length)
    else
      c :: replaceListAux p ps rep fuel rest

/-- Python `s.replace(pat, rep)` for a nonempty pattern (the empty-pattern
case, which Python treats specially, never arises in this program). -/
def pyReplace (s pat rep : String) : String :=
  match pat.data with
  | [] => s
  | p :: ps => ⟨replaceListAux p ps rep.data s.data.length s.data⟩

/-- `extract_week_from_path` from utils.py:
`int(Path(filepath).parent.name.replace("Week ", ""))`. -/
def extract_week_from_path (filepath : String) : Option Int :=
  pyInt? (pyReplace (parentName filepath) ("Week ") (""))

/-- One row of the combined raw Zoom attendance DataFrame produced by
`load_zoom_attendance` (loaders.py): the CSV columns used downstream plus the
provenance columns `source_file` / `source_path` the loader adds. -/
structure RawAttendanceRow where
  Name : String
  Email : String
  JoinTime : String
  LeaveTime : String
  Duration : String
  source_file : String
  source_path : String
deriving DecidableEq, Repr

/-- One row of `fact_attendance` as built by `transform_zoom_attendance`
(transformers.py).  `duration_minutes_x60` holds the float column
`duration_minutes` exactly, in sixtieths of a minute; the float column
`duration_hours = duration_minutes / 60` is the same quantity again and is
recovered by `toMinutes · / 60`.  `is_attended` is stored by pandas as the
0/1 int cast of the boolean; the embedding keeps the boolean. -/
structure FactAttendanceRow where
  attendance_id : String
  email : String
  learner_name : String
  attendance_date : PyDate
  week_number : Int
  join_time : String
  leave_time : String
  duration_minutes_x60 : Int
  is_attended : Bool
deriving DecidableEq, Repr

/-- `ATTENDANCE_THRESHOLD_MINUTES` from config.py: `int(os.getenv(..., "30"))`,
i.e. 30 unless overridden by the environment.  Transforms take the threshold
as an argument; this constant is its default value. -/
def ATTENDANCE_THRESHOLD_MINUTES : Int := 30

/-- The per-row body of `transform_zoom_attendance`: the column-wise `.apply`
steps restricted to one row.  Any raised parse error makes the whole
transform fail, so the row result is an `Option`.  The comparison
`duration_minutes > threshold` is carried out on the exact sixtieths
representation: `secs / 60 > thr ↔ secs > 60 * thr`. -/
def transformAttendanceRow (threshold : Int) (r : RawAttendanceRow) :
    Option FactAttendanceRow := do
  let email := normalize_email r.Email
  let durX60 ← parse_duration_to_minutes_x60 r.Duration
  let attended := decide (60 * threshold < durX60)
  let date ← extract_date_from_filename r.source_file
  let week ← extract_week_from_path r.source_path
  pure {
    attendance_id := email ++ "_" ++ dateKey date
    email := email
    learner_name := r.Name
    attendance_date := date
    week_number := week
    join_time := r.JoinTime
    leave_time := r.LeaveTime
    duration_minutes_x60 := durX60
    is_attended := attended
  }

/-- `transform_zoom_attendance` from transformers.py, one output row per input
row, failing if any row's duration, filename date, or path week fails to
parse. -/
def transform_zoom_attendance (threshold : Int) :
    List RawAttendanceRow → Option (List FactAttendanceRow)
  | [] => some []
  | r :: rs => do
    let fr ← transformAttendanceRow threshold r
    let rest ← transform_zoom_attendance threshold rs
    pure (fr :: rest)

/-- A wide assessment sheet (Labs or Quizzes): the `email` key column plus one
score column per week.  `rows` pairs each learner's email cell with the
scores aligned to `cols`; a missing cell is `none` (NaN). -/
structure WideTable where
  cols : List String
  rows : List (String × List (Option Rat))
deriving Repr

/-- `df.melt(id_vars=["email"], var_name="week", value_name="score")`:
for each value column in order, one output row per input row, carrying
(email, week label, score). -/
def melt (t : WideTable) : List (String × String × Option Rat) :=
  (List.range t.cols.length).flatMap fun j =>
    t.rows.map fun r => (r.1, t.cols.getD j (""), r.2.getD j none)

/-- One row of `fact_assessment` as built by `transform_assessments`. -/
structure FactAssessmentRow where
  assessment_id : String
  email : String
  week_number : Nat
  assessment_type : String
  score : Option Rat
deriving Repr

/-- First digit run of a string: `s.str.extract(r"(\d+)")`, `none` when the
string has no digit. -/
def extractFirstNat (s : String) : Option Nat :=
  let ds := (s.data.dropWhile (fun c => !c.isDigit)).takeWhile Char.isDigit
  if ds.isEmpty then none else some (natLit ds)

/-- The per-row steps `transform_assessments` applies to the concatenated
melted table: normalize the email, extract the week number from the week
label (`astype(int)` raises when any label has no digit, so the whole
transform fails), and build `assessment_id`.  The tuple components are
(email, week label, score, assessment type). -/
def assessRows : List (String × String × Option Rat × String) →
    Option (List FactAssessmentRow)
  | [] => some []
  | (e, w, sc, ty) :: rest => do
    let wn ← extractFirstNat w
    let email := normalize_email e
    let out ← assessRows rest
    pure ({
      assessment_id := email ++ "_" ++ pyLower ty ++ "_" ++ toString wn
      email := email
      week_number := wn
      assessment_type := ty
      score := sc
    } :: out)

/-- `transform_assessments` from transformers.py: melt labs tagged "Lab",
melt quizzes tagged "Quiz", concatenate labs-then-quizzes, then normalize
emails, extract week numbers and build ids. -/
def transform_assessments (labs quizzes : WideTable) :
    Option (List FactAssessmentRow) :=
  let labs_melted := (melt labs).map fun r => (r.1, r.2.1, r.2.2, "Lab")
  let quizzes_melted := (melt quizzes).map fun r => (r.1, r.2.1, r.2.2, "Quiz")
  assessRows (labs_melted ++ quizzes_melted)

/-- Python exception kinds raised by the modelled code paths. -/
inductive PyErr where
  | typeErr
  | nameErr
  | valueErr
  | keyErr
deriving DecidableEq, Repr

/-- One row of the raw participation sheet: a date cell and the
comma-separated `Participants` cell. -/
structure RawParticipationRow where
  Date : String
  Participants : String
deriving DecidableEq, Repr

/-- One row of `fact_participation` as built by `transform_participation`. -/
structure FactParticipationRow where
  participation_id : String
  email : String
  learner_name : String
  participation_date : PyDate
  participated : Nat
deriving DecidableEq, Repr

/-- Python dict lookup `m.get(k)` for a dict built from an association list
(`dict(zip(...))`): on duplicate keys the last binding wins. -/
def pyDictGet (m : List (String × String)) (k : String) : Option String :=
  (m.reverse.find? (fun p => p.1 == k)).map Prod.snd

/-- The record-building loop of `transform_participation`: per input row,
split `Participants` on commas, strip each name, resolve it through the
name-to-email map, and keep only resolved names.  Python's `if email:` also
drops a name whose resolved email is the empty string (falsy). -/
def participationRecords (participation_df : List RawParticipationRow)
    (name_email_map : List (String × String)) : List (String × String × String) :=
  participation_df.flatMap fun row =>
    ((pySplit row.Participants ',').map normalize_name).filterMap fun name =>
      match pyDictGet name_email_map name with
      | some email => if email = "" then none else some (row.Date, name, email)
      | none => none

/-- The column steps `transform_participation` runs after building the
DataFrame: `pd.to_datetime(..., format="%d-%b-%Y")` over the date column
(raising `ValueError` on a bad date) and the surrogate-key construction. -/
def participationFinish : List (String × String × String) →
    Except PyErr (List FactParticipationRow)
  | [] => Except.ok []
  | (dateStr, name, email) :: rest =>
    match parseDMonY dateStr with
    | none => Except.error PyErr.valueErr
    | some date =>
      match participationFinish rest with
      | Except.error e => Except.error e
      | Except.ok out =>
        Except.ok ({
          participation_id := email ++ "_" ++ dateKey date
          email := email
          learner_name := name
          participation_date := date
          participated := 1
        } :: out)

/-- `transform_participation` from transformers.py.  When the records list is
empty, `pd.DataFrame([])` has no columns at all, so the subsequent
`fact_participation["participation_date"]` indexing raises `KeyError`. -/
def transform_participation (participation_df : List RawParticipationRow)
    (name_email_map : List (String × String)) :
    Except PyErr (List FactParticipationRow) :=
  let records := participationRecords participation_df name_email_map
  if records.isEmpty then Except.error PyErr.keyErr
  else participationFinish records

/-- `create_name_email_mapping` from transformers.py:
`dict(zip(attendance_df["learner_name"].apply(normalize_name), attendance_df["email"]))`. -/
def create_name_email_mapping (attendance_df : List FactAttendanceRow) :
    List (String × String) :=
  attendance_df.map fun r => (normalize_name r.learner_name, r.email)

/-- One row of the raw learner status sheet. -/
structure RawStatusRow where
  email : String
  GraduationStatus : String
  CertificationStatus : String
deriving DecidableEq, Repr

/-- One row of `dim_learner`; `learner_name` is `none` when the status email
never appears in attendance (a NaN from `.map`). -/
structure DimLearnerRow where
  learner_id : Nat
  email : String
  learner_name : Option String
  graduation_status : String
  certification_status : String
  is_graduated : Bool
  is_certified : Bool
deriving DecidableEq, Repr

/-- `attendance_df.groupby("email")["learner_name"].first()` as a lookup:
the learner name of the first attendance row carrying the email. -/
def firstNameForEmail (attendance_df : List FactAttendanceRow) (e : String) :
    Option String :=
  (attendance_df.find? (fun r => r.email == e)).map (fun r => r.learner_name)

/-- `create_dim_learner` from transformers.py. -/
def create_dim_learner (status_df : List RawStatusRow)
    (attendance_df : List FactAttendanceRow) : List DimLearnerRow :=
  status_df.enum.map fun (i, s) =>
    let email := normalize_email s.email
    {
      learner_id := i + 1
      email := email
      learner_name := firstNameForEmail attendance_df email
      graduation_status := s.GraduationStatus
      certification_status := s.CertificationStatus
      is_graduated := s.GraduationStatus == "Graduate"
      is_certified := s.CertificationStatus == "Certified"
    }

/-- Names defined at module level in config.py (its own definitions plus the
names it itself binds at the top). -/
def configDefinedNames : List String :=
  ["os", "Path", "PROJECT_ROOT", "DATA_DIR", "OUTPUT_DIR", "ZOOM_FOLDER",
   "LABS_FILE", "PARTICIPATION_FILE_NAME", "STATUS_FILE_NAME", "ZOOM_DIR",
   "LABS_QUIZZES_FILE", "PARTICIPATION_FILE", "STATUS_FILE", "OUTPUT_FILES",
   "ATTENDANCE_THRESHOLD_MINUTES"]

/-- Names transformers.py pulls `from config import ...` (line 11). -/
def transformersConfigImports : List String :=
  ["ATTENDANCE_THRESHOLD_MINUTES", "PROGRAM_START_DATE", "PROGRAM_END_DATE"]

/-- Names main.py pulls `from config import ...` (lines 9-17). -/
def mainConfigImports : List String :=
  ["ZOOM_DIR", "LABS_QUIZZES_FILE", "PARTICIPATION_FILE", "STATUS_FILE",
   "OUTPUT_DIR", "OUTPUT_FILES", "LOGS_DIR"]

/-- Whether every name main.py and transformers.py pull from config actually
exists in config; a miss raises `ImportError` while the module loads, before
`run_pipeline` can run. -/
def importsResolve : Bool :=
  transformersConfigImports.all (fun n => configDefinedNames.contains n) &&
  mainConfigImports.all (fun n => configDefinedNames.contains n)

/-- Parameter count of `def create_dim_date():` (transformers.py line 215). -/
def createDimDateParams : Nat := 0

/-- Parameter count of `def create_dim_week():` (transformers.py line 250). -/
def createDimWeekParams : Nat := 0

/-- Argument count of `create_dim_date(fact_attendance, fact_participation)`
in `run_pipeline` (main.py line 85). -/
def mainCreateDimDateArgs : Nat := 2

/-- Argument count of `create_dim_week(fact_attendance)` in `run_pipeline`
(main.py line 86). -/
def mainCreateDimWeekArgs : Nat := 1

/-- Calling a Python function with the wrong number of positional arguments
raises `TypeError` before the body runs. -/
def pyCallArity {α : Type} (params args : Nat) (body : Except PyErr α) :
    Except PyErr α :=
  if args = params then body else Except.error PyErr.typeErr

/-- Body of `create_dim_date`: its first statement reads
`PROGRAM_START_DATE` / `PROGRAM_END_DATE`, names the transformers module
never successfully bound, so it raises `NameError` (were it ever entered). -/
def create_dim_date_body : Except PyErr Unit := Except.error PyErr.nameErr

/-- Body of `create_dim_week`: reads `PROGRAM_START_DATE`, same situation. -/
def create_dim_week_body : Except PyErr Unit := Except.error PyErr.nameErr

/-- The raw tables phase 1 hands to the rest of the pipeline, plus the
configured attendance threshold. -/
structure PipelineInput where
  zoom : List RawAttendanceRow
  labs : WideTable
  quizzes : WideTable
  participation : List RawParticipationRow
  status : List RawStatusRow
  threshold : Int

/-- Phases 2-4 of `run_pipeline` (main.py): transform facts, build
dimensions, then write the six output tables (returned as the list of table
names written).  Any exception aborts the phase sequence. -/
def runPipelineBody (inp : PipelineInput) : Except PyErr (List String) := do
  let fact_attendance ← match transform_zoom_attendance inp.threshold inp.zoom with
    | some t => Except.ok t
    | none => Except.error PyErr.valueErr
  let _fact_assessment ← match transform_assessments inp.labs inp.quizzes with
    | some t => Except.ok t
    | none => Except.error PyErr.valueErr
  let name_email_map := create_name_email_mapping fact_attendance
  let _fact_participation ← transform_participation inp.participation name_email_map
  let _dim_learner := create_dim_learner inp.status fact_attendance
  let _dim_date ← pyCallArity createDimDateParams mainCreateDimDateArgs create_dim_date_body
  let _dim_week ← pyCallArity createDimWeekParams mainCreateDimWeekArgs create_dim_week_body
  Except.ok ["dim_learner", "dim_date", "dim_week", "fact_attendance",
             "fact_assessment", "fact_participation"]

/-- `run_pipeline` from main.py: returns whether the run succeeded together
with the names of the output tables written.  The guard reflects module
loading: `from config import ...` in transformers.py and main.py must
resolve before any pipeline code can execute; the `try`/`except` in the body
turns any exception into a `False` return with nothing written (all writes
happen in phase 4, after every transform). -/
def run_pipeline (inp : PipelineInput) : Bool × List String :=
  if importsResolve then
    match runPipelineBody inp with
    | Except.ok written => (true, written)
    | Except.error _ => (false, [])
  else (false, [])

/-- A string is a well-formed normalized email value: lowering and stripping
leave it unchanged. -/
def isNormalizedEmail (e : String) : Prop := pyLower e = e ∧ pyStrip e = e

/-! ### Character and whitespace lemmas -/

theorem char_toNat_ofNat (n : Nat) (h : n < 55296) : (Char.ofNat n).toNat = n := by
  simp [Char.ofNat, Nat.isValidChar, h, Char.ofNatAux, Char.toNat, UInt32.toNat]

theorem toLower_idem (c : Char) : (Char.toLower c).toLower = Char.toLower c := by
  by_cases hc : c.toNat ≥ 65 ∧ c.toNat ≤ 90
  · have h32 : c.toNat + 32 < 55296 := by omega
    simp only [Char.toLower, if_pos hc, char_toNat_ofNat _ h32]
    rw [if_neg (by omega)]
  · simp only [Char.toLower, if_neg hc]

theorem isPyWs_iff (c : Char) :
    isPyWs c = true ↔ (c.toNat = 32 ∨ (9 ≤ c.toNat ∧ c.toNat ≤ 13)) := by
  simp [isPyWs]

theorem isPyWs_toLower (c : Char) : isPyWs (Char.toLower c) = isPyWs c := by
  by_cases hc : c.toNat ≥ 65 ∧ c.toNat ≤ 90
  · have h32 : c.toNat + 32 < 55296 := by omega
    rw [Bool.eq_iff_iff, isPyWs_iff, isPyWs_iff]
    simp only [Char.toLower, if_pos hc, char_toNat_ofNat _ h32]
    omega
  · simp only [Char.toLower, if_neg hc]

theorem isDigit_toNat (c : Char) (h : c.isDigit = true) :
    48 ≤ c.toNat ∧ c.toNat ≤ 57 := by
  simp only [Char.isDigit, Bool.and_eq_true, decide_eq_true_eq] at h
  exact h

theorem isDigit_not_ws (c : Char) (h : c.isDigit = true) : isPyWs c = false := by
  have := isDigit_toNat c h
  rw [← Bool.not_eq_true, isPyWs_iff]
  omega

/-! ### Strip and lower lemmas -/

theorem mem_pyStripList {c : Char} {l : List Char} (h : c ∈ pyStripList l) : c ∈ l := by
  unfold pyStripList at h
  exact (List.dropWhile_sublist _).subset (( List.rdropWhile_prefix _ _).sublist.subset h)

theorem pyStripList_idem (l : List Char) : pyStripList (pyStripList l) = pyStripList l := by
  unfold pyStripList
  rcases he : (l.dropWhile isPyWs).rdropWhile isPyWs with _ | ⟨c, t⟩
  · rfl
  · have hpre : (c :: t) <+: l.dropWhile isPyWs := he ▸ List.rdropWhile_prefix _ _
    have hdw : (c :: t).dropWhile isPyWs = c :: t := by
      obtain ⟨s, hs⟩ := hpre
      have hdd := List.dropWhile_idempotent isPyWs l
      rw [← hs, List.cons_append] at hdd
      by_cases hc : isPyWs c = true
      · exfalso
        rw [List.dropWhile_cons, if_pos hc] at hdd
        have hsub : ((t ++ s).dropWhile isPyWs).Sublist (t ++ s) := List.dropWhile_sublist _
        have hlen := hdd ▸ hsub.length_le
        simp at hlen
      · rw [List.dropWhile_cons, if_neg hc]
    rw [hdw, ← he, List.rdropWhile_idempotent]

theorem pyLower_data (s : String) : (pyLower s).data = s.data.map Char.toLower := rfl

theorem pyStrip_data (s : String) : (pyStrip s).data = pyStripList s.data := rfl

theorem map_toLower_pyStripList (l : List Char) :
    (pyStripList l).map Char.toLower = pyStripList (l.map Char.toLower) := by
  unfold pyStripList List.rdropWhile
  have hcomm : ∀ m : List Char,
      (m.map Char.toLower).dropWhile isPyWs = (m.dropWhile isPyWs).map Char.toLower := by
    intro m
    induction m with
    | nil => rfl
    | cons c rest ih =>
      simp only [List.map_cons, List.dropWhile_cons, isPyWs_toLower]
      split
      · exact ih
      · rfl
  rw [hcomm, ← List.map_reverse, hcomm, List.map_reverse]

theorem map_toLower_idem (l : List Char) :
    (l.map Char.toLower).map Char.toLower = l.map Char.toLower := by
  rw [List.map_map]
  exact List.map_congr_left fun c _ => toLower_idem c

theorem normalize_email_normalized (s : String) : isNormalizedEmail (normalize_email s) := by
  unfold isNormalizedEmail normalize_email pyStrip pyLower
  constructor
  · apply congrArg String.mk
    show (String.mk (pyStripList (String.mk (s.data.map Char.toLower)).data)).data.map Char.toLower
        = pyStripList (String.mk (s.data.map Char.toLower)).data
    show (pyStripList (s.data.map Char.toLower)).map Char.toLower
        = pyStripList (s.data.map Char.toLower)
    rw [map_toLower_pyStripList, map_toLower_idem]
  · apply congrArg String.mk
    show pyStripList (String.mk (pyStripList (String.mk (s.data.map Char.toLower)).data)).data
        = pyStripList (String.mk (s.data.map Char.toLower)).data
    show pyStripList (pyStripList (s.data.map Char.toLower))
        = pyStripList (s.data.map Char.toLower)
    exact pyStripList_idem _

/-! ### Digit-string and `pyInt?` lemmas -/

theorem pyStripList_eq_self_of_digits (l : List Char)
    (h : ∀ c ∈ l, c.isDigit = true) (hne : l ≠ []) : pyStripList l = l := by
  unfold pyStripList
  have hd : l.dropWhile isPyWs = l := by
    cases l with
    | nil => rfl
    | cons c t =>
      rw [List.dropWhile_cons, if_neg]
      simp [isDigit_not_ws c (h c (by simp))]
  rw [hd]
  refine List.rdropWhile_eq_self_iff.mpr fun hl => ?_
  simp [isDigit_not_ws _ (h _ (List.getLast_mem hl))]

theorem udigits_of_digits (l : List Char) (hne : l ≠ [])
    (h : ∀ c ∈ l, c.isDigit = true) : udigits l = true := by
  induction l with
  | nil => exact absurd rfl hne
  | cons c rest ih =>
    cases rest with
    | nil => simp only [udigits]; exact h c (by simp)
    | cons d rest' =>
      have hd : d.isDigit = true := h d (by simp)
      have hdu : ¬ d = '_' := by
        intro he
        rw [he] at hd
        simp [Char.isDigit] at hd
      simp only [udigits, h c (by simp), Bool.true_and, if_neg hdu]
      exact ih (by simp) fun x hx => h x (List.mem_cons_of_mem c hx)

theorem udigits_has_digit {l : List Char} (h : udigits l = true) :
    ∃ c ∈ l, c.isDigit = true := by
  cases l with
  | nil => simp [udigits] at h
  | cons c rest =>
    cases rest with
    | nil =>
      simp only [udigits] at h
      exact ⟨c, by simp, h⟩
    | cons d rest' =>
      simp only [udigits, Bool.and_eq_true] at h
      exact ⟨c, by simp, h.1⟩

theorem pyInt?_digits (l : List Char) (hne : l ≠ [])
    (h : ∀ c ∈ l, c.isDigit = true) : pyInt? (String.mk l) = some (natLit l : Int) := by
  have hstrip : pyStripList (String.mk l).data = l := pyStripList_eq_self_of_digits l h hne
  have hfil : l.filter (fun c => c ≠ '_') = l := by
    refine List.filter_eq_self.mpr fun a ha => ?_
    have := h a ha
    simp only [ne_eq, decide_eq_true_eq]
    intro he
    rw [he] at this
    simp [Char.isDigit] at this
  unfold pyInt?
  rw [hstrip]
  rcases l with _ | ⟨c, t⟩
  · exact absurd rfl hne
  · have hc : c.isDigit = true := h c (by simp)
    have hcp : c ≠ '+' := by
      intro he; rw [he] at hc; simp [Char.isDigit] at hc
    have hcm : c ≠ '-' := by
      intro he; rw [he] at hc; simp [Char.isDigit] at hc
    split
    · next ds heq => exact absurd (List.cons.injEq .. ▸ heq).1 hcp
    · next ds heq => exact absurd (List.cons.injEq .. ▸ heq).1 hcm
    · next heq1 heq2 =>
      rw [if_pos (udigits_of_digits _ hne h), hfil]

theorem pyInt?_eq_none_of_no_digit (s : String)
    (h : ∀ c ∈ s.data, c.isDigit = false) : pyInt? s = none := by
  have hstr : ∀ c ∈ pyStripList s.data, c.isDigit = false :=
    fun c hc => h c (mem_pyStripList hc)
  unfold pyInt?
  split
  · next ds heq =>
    rw [if_neg]
    intro hud
    obtain ⟨c, hc, hcd⟩ := udigits_has_digit hud
    have : c ∈ pyStripList s.data := heq ▸ List.mem_cons_of_mem _ hc
    rw [hstr c this] at hcd
    exact absurd hcd (by simp)
  · next ds heq =>
    rw [if_neg]
    intro hud
    obtain ⟨c, hc, hcd⟩ := udigits_has_digit hud
    have : c ∈ pyStripList s.data := heq ▸ List.mem_cons_of_mem _ hc
    rw [hstr c this] at hcd
    exact absurd hcd (by simp)
  · next heq1 heq2 =>
    rw [if_neg]
    intro hud
    obtain ⟨c, hc, hcd⟩ := udigits_has_digit hud
    rw [hstr c hc] at hcd
    exact absurd hcd (by simp)

theorem natLit_foldl_lt (l : List Char) (h : ∀ c ∈ l, c.isDigit = true) :
    ∀ a : Nat, l.foldl (fun a c => 10 * a + (c.toNat - 48)) a < (a + 1) * 10 ^ l.length := by
  induction l with
  | nil => intro a; simp
  | cons c rest ih =>
    intro a
    have hv : c.toNat - 48 ≤ 9 := by
      have := isDigit_toNat c (h c (by simp))
      omega
    have hstep := ih (fun x hx => h x (List.mem_cons_of_mem c hx)) (10 * a + (c.toNat - 48))
    calc (c :: rest).foldl (fun a c => 10 * a + (c.toNat - 48)) a
        = rest.foldl (fun a c => 10 * a + (c.toNat - 48)) (10 * a + (c.toNat - 48)) := rfl
      _ < (10 * a + (c.toNat - 48) + 1) * 10 ^ rest.length := hstep
      _ ≤ ((a + 1) * 10) * 10 ^ rest.length := by
          apply Nat.mul_le_mul_right
          omega
      _ = (a + 1) * 10 ^ (c :: rest).length := by
          rw [List.length_cons, pow_succ]
          ring

theorem natLit_lt (l : List Char) (h : ∀ c ∈ l, c.isDigit = true) :
    natLit l < 10 ^ l.length := by
  simpa using natLit_foldl_lt l h 0

/-! ### `dateKey` lemmas -/

theorem digitChar_inj {a b : Nat} (h : digitChar a = digitChar b) : a % 10 = b % 10 := by
  have h2 := congrArg Char.toNat h
  rw [digitChar, digitChar, char_toNat_ofNat _ (by omega), char_toNat_ofNat _ (by omega)] at h2
  omega

theorem dateKey_length (d : PyDate) : (dateKey d).length = 8 := rfl

theorem dateKey_inj {d1 d2 : PyDate}
    (hy1 : d1.year < 10000) (hy2 : d2.year < 10000)
    (hm1 : d1.month < 100) (hm2 : d2.month < 100)
    (hd1 : d1.day < 100) (hd2 : d2.day < 100)
    (h : dateKey d1 = dateKey d2) : d1 = d2 := by
  have hdata := congrArg String.data h
  simp only [dateKey, String.data_append, pad4, pad2, List.cons_append, List.nil_append,
    List.cons.injEq, and_true] at hdata
  obtain ⟨e1, e2, e3, e4, e5, e6, e7, e8⟩ := hdata
  have g1 := digitChar_inj e1
  have g2 := digitChar_inj e2
  have g3 := digitChar_inj e3
  have g4 := digitChar_inj e4
  have g5 := digitChar_inj e5
  have g6 := digitChar_inj e6
  have g7 := digitChar_inj e7
  have g8 := digitChar_inj e8
  cases d1; cases d2
  simp only [PyDate.mk.injEq]
  simp only at g1 g2 g3 g4 g5 g6 g7 g8 hy1 hy2 hm1 hm2 hd1 hd2
  omega

/-! ### Claim C1 -/

/-- C1: for every input, `run_pipeline` neither returns `True` nor writes any
output table: the `from config import ...` lines of transformers.py demand
`PROGRAM_START_DATE` and `PROGRAM_END_DATE`, which config.py does not define,
and `run_pipeline` calls the zero-parameter functions `create_dim_date` and
`create_dim_week` with two and one positional arguments respectively, so
phase 3 — and hence phase 4, where all writes happen — cannot complete. -/
theorem run_pipeline_never_succeeds :
    (∀ inp : PipelineInput, run_pipeline inp = (false, [])) ∧
    transformersConfigImports.all (fun n => configDefinedNames.contains n) = false ∧
    pyCallArity createDimDateParams mainCreateDimDateArgs create_dim_date_body
      = Except.error PyErr.typeErr ∧
    pyCallArity createDimWeekParams mainCreateDimWeekArgs create_dim_week_body
      = Except.error PyErr.typeErr := by
  refine ⟨fun inp => ?_, rfl, rfl, rfl⟩
  unfold run_pipeline
  rw [if_neg]
  rw [show importsResolve = false from rfl]
  simp

/-! ### Claim C9 -/

/-- C9: the claimed dim_date coverage invariant is the evident intent of the
caller (`create_dim_date(fact_attendance, fact_participation)` in main.py),
but the code cannot deliver it: `create_dim_date` is defined with zero
parameters and built from `PROGRAM_START_DATE`/`PROGRAM_END_DATE`, which do
not exist, so the call raises and no run ever produces a dim_date table —
on every input, "dim_date" is never among the written outputs. -/
theorem dim_date_never_produced :
    (∀ inp : PipelineInput, ("dim_date" : String) ∉ (run_pipeline inp).2) ∧
    pyCallArity createDimDateParams mainCreateDimDateArgs create_dim_date_body
      = Except.error PyErr.typeErr ∧
    create_dim_date_body = Except.error PyErr.nameErr := by
  refine ⟨fun inp => ?_, rfl, rfl⟩
  unfold run_pipeline
  rw [if_neg]
  · simp
  · rw [show importsResolve = false from rfl]
    simp

/-! ### Claim C10 -/

/-- C10: `transform_participation` raises (rather than returning an empty
fact table) whenever no participant name in any input row resolves through
the name-to-email map — including when the input has zero rows — because the
empty records list yields a DataFrame without a `participation_date` column,
whose indexing raises `KeyError`. -/
theorem transform_participation_errors_when_nothing_resolves
    (participation_df : List RawParticipationRow)
    (name_email_map : List (String × String))
    (h : ∀ row ∈ participation_df,
      ∀ name ∈ (pySplit row.Participants ',').map normalize_name,
        pyDictGet name_email_map name = none) :
    transform_participation participation_df name_email_map
      = Except.error PyErr.keyErr := by
  have hrec : participationRecords participation_df name_email_map = [] := by
    unfold participationRecords
    induction participation_df with
    | nil => rfl
    | cons row rest ih =>
      rw [List.flatMap_cons, ih (fun r hr => h r (List.mem_cons_of_mem row hr))]
      rw [List.filterMap_eq_nil_iff.mpr, List.nil_append]
      intro name hname
      rw [h row (by simp) name hname]
  unfold transform_participation
  rw [hrec]
  rfl

/-- Closed instances of C10: the empty input, and an input row none of whose
participants is in the map, both raise `KeyError`. -/
theorem transform_participation_errors_witness :
    transform_participation [] [] = Except.error PyErr.keyErr ∧
    transform_participation [⟨"05-Aug-2024", "Ama Owusu, Kojo Mensah"⟩] []
      = Except.error PyErr.keyErr := by
  constructor
  · exact transform_participation_errors_when_nothing_resolves [] [] (by simp)
  · exact transform_participation_errors_when_nothing_resolves _ []
      (by intro row hrow name hname; rfl)

/-! ### Claim C3 -/

/-- C3 (amended): the duration parser returns `H*60 + MM + SS/60` minutes
computed from the first three colon-separated segments; it fails exactly when
fewer than three segments exist or one of the first three is non-numeric —
segments beyond the third are ignored, not rejected.  Concretely,
`"1:05:30"` gives 65.5 minutes and `"0:30:00"` gives 30.0 minutes. -/
theorem parse_duration_characterization :
    (∀ (s p0 p1 p2 : String) (rest : List String) (h m sec : Int),
      pySplit s ':' = p0 :: p1 :: p2 :: rest →
      pyInt? p0 = some h → pyInt? p1 = some m → pyInt? p2 = some sec →
      (parse_duration_to_minutes_x60 s).map toMinutes
        = some ((h : Rat) * 60 + (m : Rat) + (sec : Rat) / 60)) ∧
    (∀ s : String, (pySplit s ':').length < 3 →
      parse_duration_to_minutes_x60 s = none) ∧
    (∀ (s p0 p1 p2 : String) (rest : List String),
      pySplit s ':' = p0 :: p1 :: p2 :: rest →
      (pyInt? p0 = none ∨ pyInt? p1 = none ∨ pyInt? p2 = none) →
      parse_duration_to_minutes_x60 s = none) ∧
    (parse_duration_to_minutes_x60 ("1:05:30")).map toMinutes = some (131 / 2) ∧
    (parse_duration_to_minutes_x60 ("0:30:00")).map toMinutes = some 30 := by
  refine ⟨?_, ?_, ?_, ?_, ?_⟩
  · intro s p0 p1 p2 rest h m sec hsplit hp0 hp1 hp2
    unfold parse_duration_to_minutes_x60
    rw [hsplit]
    simp only [hp0, hp1, hp2, Option.bind_eq_bind, Option.some_bind, Option.pure_def,
      Option.map_some']
    congr 1
    unfold toMinutes
    push_cast
    ring
  · intro s hlen
    unfold parse_duration_to_minutes_x60
    rcases hsplit : pySplit s ':' with _ | ⟨a, _ | ⟨b, _ | ⟨c, t⟩⟩⟩
    · rfl
    · rfl
    · rfl
    · rw [hsplit] at hlen
      simp at hlen
      omega
  · intro s p0 p1 p2 rest hsplit hnone
    unfold parse_duration_to_minutes_x60
    rw [hsplit]
    rcases hnone with h | h | h <;> simp [h]
  · rw [show parse_duration_to_minutes_x60 ("1:05:30") = some 3930 from rfl]
    rw [Option.map_some']
    unfold toMinutes
    norm_num
  · rw [show parse_duration_to_minutes_x60 ("0:30:00") = some 1800 from rfl]
    rw [Option.map_some']
    unfold toMinutes
    norm_num

/-- Closed instance of C3's amended value clause at a concrete input. -/
theorem parse_duration_characterization_witness :
    (parse_duration_to_minutes_x60 ("2:10:30")).map toMinutes
      = some ((2 : Rat) * 60 + (10 : Rat) + (30 : Rat) / 60) :=
  parse_duration_characterization.1 ("2:10:30") ("2") ("10") ("30") [] 2 10 30
    rfl rfl rfl rfl

/-- C3 counterexample to the claim as stated: `"1:02:03:04"` is malformed for
`H:MM:SS` (it has four segments, not three), yet the parser does not fail —
it returns 62.05 minutes, ignoring the fourth segment. -/
theorem parse_duration_extra_segments_counterexample :
    (pySplit ("1:02:03:04") ':').length = 4 ∧
    parse_duration_to_minutes_x60 ("1:02:03:04") = some 3723 ∧
    (parse_duration_to_minutes_x60 ("1:02:03:04")).map toMinutes = some (1241 / 20) := by
  refine ⟨rfl, rfl, ?_⟩
  rw [show parse_duration_to_minutes_x60 ("1:02:03:04") = some 3723 from rfl]
  rw [Option.map_some']
  unfold toMinutes
  norm_num

/-! ### Claim C4 -/

theorem replaceListAux_no_head (p : Char) (ps rep : List Char) :
    ∀ (fuel : Nat) (l : List Char), p ∉ l → replaceListAux p ps rep fuel l = l := by
  intro fuel
  induction fuel with
  | zero => intro l _; cases l <;> rfl
  | succ f ih =>
    intro l hp
    cases l with
    | nil => rfl
    | cons c rest =>
      have hpc : ¬ p = c := fun he => hp (he ▸ List.mem_cons_self c rest)
      simp only [replaceListAux]
      rw [if_neg (by simp [hpc])]
      rw [ih rest (fun hm => hp (List.mem_cons_of_mem c hm))]

theorem mem_replaceListAux_nil_rep (p : Char) (ps : List Char) :
    ∀ (fuel : Nat) (l : List Char) (c : Char),
      c ∈ replaceListAux p ps [] fuel l → c ∈ l := by
  intro fuel
  induction fuel with
  | zero =>
    intro l c hc
    cases l with
    | nil => simp [replaceListAux] at hc
    | cons a rest => exact hc
  | succ f ih =>
    intro l c hc
    cases l with
    | nil => simp [replaceListAux] at hc
    | cons a rest =>
      simp only [replaceListAux] at hc
      by_cases hcond : (p = a && ps.isPrefixOf rest) = true
      · rw [if_pos hcond, List.nil_append] at hc
        exact List.mem_cons_of_mem a (List.drop_subset _ _ (ih _ c hc))
      · rw [if_neg hcond] at hc
        rcases List.mem_cons.mp hc with he | hm
        · exact he ▸ List.mem_cons_self a rest
        · exact List.mem_cons_of_mem a (ih _ c hm)

/-- C4: the week extractor returns `N` for a path whose parent directory is
exactly `Week <N>` (`N` a digit string), and fails when the parent directory
name contains no digit at all; concretely `"data/Week 3/05-Aug-2024.csv"`
yields week 3. -/
theorem extract_week_characterization :
    (∀ (p : String) (l : List Char),
      parentName p = "Week " ++ String.mk l → l ≠ [] →
      (∀ c ∈ l, c.isDigit = true) →
      extract_week_from_path p = some (natLit l : Int)) ∧
    (∀ p : String, (∀ c ∈ (parentName p).data, c.isDigit = false) →
      extract_week_from_path p = none) ∧
    extract_week_from_path ("data/Week 3/05-Aug-2024.csv") = some 3 := by
  refine ⟨?_, ?_, rfl⟩
  · intro p l hpar hne hdig
    have hdata : ("Week " ++ String.mk l).data = 'W' :: 'e' :: 'e' :: 'k' :: ' ' :: l := by
      rw [String.data_append]
      rfl
    have hrepl : pyReplace (parentName p) ("Week ") ("") = String.mk l := by
      have hgen : pyReplace (parentName p) ("Week ") ("")
          = String.mk (replaceListAux 'W' ['e', 'e', 'k', ' '] []
              (parentName p).data.length (parentName p).data) := rfl
      rw [hgen, hpar, hdata]
      have hW : 'W' ∉ l := by
        intro hm
        have := hdig 'W' hm
        simp [Char.isDigit] at this
      have hlen : ('W' :: 'e' :: 'e' :: 'k' :: ' ' :: l).length = l.length + 5 := by
        simp
      rw [hlen]
      simp only [replaceListAux]
      rw [if_pos (by simp [List.isPrefixOf])]
      have hdrop : List.drop (['e', 'e', 'k', ' '] : List Char).length
          ('e' :: 'e' :: 'k' :: ' ' :: l) = l := rfl
      rw [hdrop, List.nil_append, replaceListAux_no_head 'W' _ _ _ l hW]
    unfold extract_week_from_path
    rw [hrepl]
    exact pyInt?_digits l hne hdig
  · intro p hnod
    unfold extract_week_from_path
    apply pyInt?_eq_none_of_no_digit
    intro c hc
    have hgen : pyReplace (parentName p) ("Week ") ("")
        = String.mk (replaceListAux 'W' ['e', 'e', 'k', ' '] []
            (parentName p).data.length (parentName p).data) := rfl
    rw [hgen] at hc
    exact hnod c (mem_replaceListAux_nil_rep 'W' _ _ _ c hc)

/-- Closed instance of C4's positive clause at a concrete path. -/
theorem extract_week_characterization_witness :
    extract_week_from_path ("cohort/Week 12/01-Jan-2025.csv") = some (natLit ['1', '2'] : Int) :=
  extract_week_characterization.1 ("cohort/Week 12/01-Jan-2025.csv") ['1', '2']
    rfl (by simp) (by decide)

/-! ### Claim C2 -/

theorem threshold_lt_div_iff (thr d : Int) :
    ((thr : Rat) < (d : Rat) / 60) ↔ (60 * thr < d) := by
  rw [lt_div_iff₀ (by norm_num : (0:Rat) < 60),
    show ((thr : Rat) * 60) = ((60 * thr : Int) : Rat) by push_cast; ring, Int.cast_lt]

/-- C2: for every raw attendance row the transform accepts, `is_attended`
holds iff the parsed duration (in minutes) strictly exceeds the threshold;
at the default threshold 30, `"0:30:00"` (exactly 30.0 minutes) gives
`is_attended` false and `"0:30:01"` gives true. -/
theorem is_attended_iff_above_threshold :
    (∀ (thr : Int) (r : RawAttendanceRow) (fr : FactAttendanceRow),
      transformAttendanceRow thr r = some fr →
      parse_duration_to_minutes_x60 r.Duration = some fr.duration_minutes_x60 ∧
      (fr.is_attended = true ↔ (thr : Rat) < toMinutes fr.duration_minutes_x60)) ∧
    (∃ fr, transformAttendanceRow ATTENDANCE_THRESHOLD_MINUTES
        ⟨"Ama", "a@x.com", "10:00", "10:30", "0:30:00", "05-Aug-2024.csv",
          "data/Week 1/05-Aug-2024.csv"⟩ = some fr ∧ fr.is_attended = false) ∧
    (∃ fr, transformAttendanceRow ATTENDANCE_THRESHOLD_MINUTES
        ⟨"Ama", "a@x.com", "10:00", "10:31", "0:30:01", "05-Aug-2024.csv",
          "data/Week 1/05-Aug-2024.csv"⟩ = some fr ∧ fr.is_attended = true) := by
  refine ⟨?_, ?_, ?_⟩
  · intro thr r fr h
    unfold transformAttendanceRow at h
    simp only [Option.bind_eq_bind, Option.bind_eq_some, Option.pure_def,
      Option.some.injEq] at h
    obtain ⟨d, hd, date, hdate, week, hweek, hfr⟩ := h
    subst hfr
    refine ⟨hd, ?_⟩
    simp only [decide_eq_true_eq]
    rw [toMinutes, threshold_lt_div_iff]
  · exact ⟨⟨"a@x.com_20240805", "a@x.com", "Ama", ⟨2024, 8, 5⟩, 1, "10:00", "10:30",
      1800, false⟩, rfl, rfl⟩
  · exact ⟨⟨"a@x.com_20240805", "a@x.com", "Ama", ⟨2024, 8, 5⟩, 1, "10:00", "10:31",
      1801, true⟩, rfl, rfl⟩

/-- Closed instance of C2's first clause at a concrete row. -/
theorem is_attended_iff_above_threshold_witness :
    parse_duration_to_minutes_x60 ("0:45:00") = some (2700 : Int) ∧
    ((true : Bool) = true ↔ (30 : Rat) < toMinutes 2700) :=
  is_attended_iff_above_threshold.1 30
    ⟨"Ama", "a@x.com", "", "", "0:45:00", "05-Aug-2024.csv", "data/Week 1/05-Aug-2024.csv"⟩
    ⟨"a@x.com_20240805", "a@x.com", "Ama", ⟨2024, 8, 5⟩, 1, "", "", 2700, true⟩
    rfl

/-! ### Forall₂ machinery relating raw rows to fact rows -/

theorem transform_zoom_forall₂ (thr : Int) :
    ∀ (df : List RawAttendanceRow) (out : List FactAttendanceRow),
      transform_zoom_attendance thr df = some out →
      List.Forall₂ (fun r fr => transformAttendanceRow thr r = some fr) df out := by
  intro df
  induction df with
  | nil =>
    intro out h
    simp only [transform_zoom_attendance, Option.some.injEq] at h
    subst h
    exact List.Forall₂.nil
  | cons r rs ih =>
    intro out h
    simp only [transform_zoom_attendance, Option.bind_eq_bind, Option.bind_eq_some,
      Option.pure_def, Option.some.injEq] at h
    obtain ⟨fr, hfr, rest, hrest, hout⟩ := h
    subst hout
    exact List.Forall₂.cons hfr (ih rest hrest)

theorem forall₂_mem_right {α β : Type} {S : α → β → Prop} :
    ∀ {l : List α} {l' : List β}, List.Forall₂ S l l' → ∀ {b : β}, b ∈ l' →
      ∃ a ∈ l, S a b := by
  intro l l' h
  induction h with
  | nil => intro b hb; simp at hb
  | cons hab htl ih =>
    intro b hb
    rcases List.mem_cons.mp hb with he | hm
    · exact ⟨_, by simp, he ▸ hab⟩
    · obtain ⟨a, ha, hS⟩ := ih hm
      exact ⟨a, List.mem_cons_of_mem _ ha, hS⟩

theorem pairwise_transfer {α β : Type} {R : α → α → Prop} {R' : β → β → Prop}
    {S : α → β → Prop}
    (hT : ∀ a b a' b', S a a' → S b b' → R a b → R' a' b') :
    ∀ {l : List α} {l' : List β}, List.Forall₂ S l l' → l.Pairwise R → l'.Pairwise R' := by
  intro l l' h
  induction h with
  | nil => intro _; exact List.Pairwise.nil
  | cons hab htl ih =>
    intro hp
    rcases List.pairwise_cons.mp hp with ⟨hhead, htail⟩
    refine List.Pairwise.cons ?_ (ih htail)
    intro b' hb'
    obtain ⟨b, hbmem, hS⟩ := forall₂_mem_right htl hb'
    exact hT _ _ _ _ hab hS (hhead b hbmem)

/-! ### Claim C5 -/

theorem parseYearField_lt (y : String) (v : Nat) (h : parseYearField y = some v) :
    v < 10000 := by
  unfold parseYearField at h
  rw [Option.ite_none_right_eq_some] at h
  obtain ⟨hcond, hv⟩ := h
  simp only [Bool.and_eq_true, decide_eq_true_eq] at hcond
  obtain ⟨hylen, hydig⟩ := hcond
  injection hv with hv
  subst hv
  have := natLit_lt y.data (fun c hc => List.all_eq_true.mp hydig c hc)
  rw [hylen] at this
  norm_num at this
  exact this

theorem monthFromAbbrev_bounds (mon : String) (v : Nat)
    (h : monthFromAbbrev mon = some v) : 1 ≤ v ∧ v ≤ 12 := by
  unfold monthFromAbbrev at h
  rw [Option.map_eq_some'] at h
  obtain ⟨i, hidx, hi⟩ := h
  have hilt : i < monthAbbrevs.length :=
    (List.findIdx?_eq_some_iff_findIdx_eq.mp hidx).1
  simp only [monthAbbrevs, List.length_cons, List.length_nil] at hilt
  omega

theorem parseDMonY_bounds (s : String) (d : PyDate) (h : parseDMonY s = some d) :
    d.year < 10000 ∧ 1 ≤ d.month ∧ d.month ≤ 12 ∧ 1 ≤ d.day ∧ d.day ≤ 31 := by
  unfold parseDMonY at h
  rcases hsplit : pySplit s '-' with _ | ⟨dstr, _ | ⟨mon, _ | ⟨y, t⟩⟩⟩ <;> rw [hsplit] at h
  · simp at h
  · simp at h
  · simp at h
  · rcases t with _ | _
    · simp only [Option.bind_eq_bind, Option.bind_eq_some, Option.ite_none_right_eq_some,
        Option.some.injEq, Bool.and_eq_true, decide_eq_true_eq] at h
      obtain ⟨dv, hdv, mv, hmv, yv, hyv, ⟨hd1, hd31⟩, hdate⟩ := h
      subst hdate
      have hy := parseYearField_lt y yv hyv
      have hm := monthFromAbbrev_bounds mon mv hmv
      exact ⟨hy, hm.1, hm.2, hd1, hd31⟩
    · simp at h

/-- C5 (amended): the attendance transform emits exactly one fact row per raw
row, and `attendance_id` (normalized email + "_" + YYYYMMDD key) is a pure
function of the row that keys rows uniquely provided no two raw rows share
both normalized email and parsed attendance date. -/
theorem attendance_one_row_per_raw_and_id_unique :
    (∀ (thr : Int) (df : List RawAttendanceRow) (out : List FactAttendanceRow),
      transform_zoom_attendance thr df = some out → out.length = df.length) ∧
    (∀ (thr : Int) (df : List RawAttendanceRow) (out : List FactAttendanceRow),
      transform_zoom_attendance thr df = some out →
      df.Pairwise (fun a b =>
        (normalize_email a.Email, extract_date_from_filename a.source_file)
          ≠ (normalize_email b.Email, extract_date_from_filename b.source_file)) →
      out.Pairwise (fun a b => a.attendance_id ≠ b.attendance_id)) := by
  constructor
  · intro thr df out h
    exact (transform_zoom_forall₂ thr df out h).length_eq.symm
  · intro thr df out h hpw
    refine pairwise_transfer ?_ (transform_zoom_forall₂ thr df out h) hpw
    intro a b a' b' hSa hSb hkey
    unfold transformAttendanceRow at hSa hSb
    simp only [Option.bind_eq_bind, Option.bind_eq_some, Option.pure_def,
      Option.some.injEq] at hSa hSb
    obtain ⟨da, hda, datea, hdatea, weeka, hweeka, hfa⟩ := hSa
    obtain ⟨db, hdb, dateb, hdateb, weekb, hweekb, hfb⟩ := hSb
    subst hfa
    subst hfb
    simp only
    intro hid
    apply hkey
    have hdataeq := congrArg String.data hid
    have hsplitid : ∀ e k : String, (e ++ "_" ++ k).data = e.data ++ ('_' :: k.data) := by
      intro e k
      rw [String.data_append, String.data_append, List.append_assoc]
      rfl
    rw [hsplitid, hsplitid] at hdataeq
    have hlens : ('_' :: (dateKey datea).data).length = ('_' :: (dateKey dateb).data).length := by
      have h8a : (dateKey datea).data.length = 8 := dateKey_length datea
      have h8b : (dateKey dateb).data.length = 8 := dateKey_length dateb
      simp [h8a, h8b]
    obtain ⟨hemail, hkeydata⟩ := List.append_inj' hdataeq hlens
    have hemails : normalize_email a.Email = normalize_email b.Email :=
      congrArg String.mk hemail
    have hkeys : dateKey datea = dateKey dateb :=
      congrArg String.mk (List.tail_eq_of_cons_eq hkeydata)
    have hba := parseDMonY_bounds _ _ hdatea
    have hbb := parseDMonY_bounds _ _ hdateb
    have hdates : datea = dateb :=
      dateKey_inj hba.1 hbb.1 (by omega) (by omega) (by omega) (by omega) hkeys
    rw [hemails, hdatea, hdateb, hdates]

/-- Closed instance of C5's amended clauses at a concrete two-row input with
distinct (email, date) keys. -/
theorem attendance_one_row_per_raw_and_id_unique_witness :
    ([(⟨"a@x.com_20240805", "a@x.com", "Ama", ⟨2024, 8, 5⟩, 1, "", "", 2700, true⟩ :
        FactAttendanceRow),
      ⟨"b@x.com_20240805", "b@x.com", "Kojo", ⟨2024, 8, 5⟩, 1, "", "", 3000, true⟩].length
      = [(⟨"Ama", "a@x.com", "", "", "0:45:00", "05-Aug-2024.csv",
            "data/Week 1/05-Aug-2024.csv"⟩ : RawAttendanceRow),
          ⟨"Kojo", "b@x.com", "", "", "0:50:00", "05-Aug-2024.csv",
            "data/Week 1/05-Aug-2024.csv"⟩].length) ∧
    ([(⟨"a@x.com_20240805", "a@x.com", "Ama", ⟨2024, 8, 5⟩, 1, "", "", 2700, true⟩ :
        FactAttendanceRow),
      ⟨"b@x.com_20240805", "b@x.com", "Kojo", ⟨2024, 8, 5⟩, 1, "", "", 3000, true⟩].Pairwise
        (fun a b => a.attendance_id ≠ b.attendance_id)) := by
  constructor
  · exact attendance_one_row_per_raw_and_id_unique.1 30
      [⟨"Ama", "a@x.com", "", "", "0:45:00", "05-Aug-2024.csv",
          "data/Week 1/05-Aug-2024.csv"⟩,
        ⟨"Kojo", "b@x.com", "", "", "0:50:00", "05-Aug-2024.csv",
          "data/Week 1/05-Aug-2024.csv"⟩]
      [⟨"a@x.com_20240805", "a@x.com", "Ama", ⟨2024, 8, 5⟩, 1, "", "", 2700, true⟩,
        ⟨"b@x.com_20240805", "b@x.com", "Kojo", ⟨2024, 8, 5⟩, 1, "", "", 3000, true⟩] rfl
  · exact attendance_one_row_per_raw_and_id_unique.2 30
      [⟨"Ama", "a@x.com", "", "", "0:45:00", "05-Aug-2024.csv",
          "data/Week 1/05-Aug-2024.csv"⟩,
        ⟨"Kojo", "b@x.com", "", "", "0:50:00", "05-Aug-2024.csv",
          "data/Week 1/05-Aug-2024.csv"⟩]
      [⟨"a@x.com_20240805", "a@x.com", "Ama", ⟨2024, 8, 5⟩, 1, "", "", 2700, true⟩,
        ⟨"b@x.com_20240805", "b@x.com", "Kojo", ⟨2024, 8, 5⟩, 1, "", "", 3000, true⟩]
      rfl (by decide)

/-- C5 counterexample to the claim as stated: two distinct raw rows sharing
normalized email and session date produce two distinct fact rows with the
same `attendance_id`. -/
theorem attendance_id_collision_counterexample :
    ∃ out, transform_zoom_attendance 30
      [⟨"Ama Owusu", "a@x.com", "", "", "0:45:00", "05-Aug-2024.csv",
          "data/Week 1/05-Aug-2024.csv"⟩,
        ⟨"Kojo Mensah", "a@x.com", "", "", "0:50:00", "05-Aug-2024.csv",
          "data/Week 1/05-Aug-2024.csv"⟩] = some out ∧
      out.length = 2 ∧
      ∃ a ∈ out, ∃ b ∈ out, a ≠ b ∧ a.attendance_id = b.attendance_id := by
  refine ⟨[⟨"a@x.com_20240805", "a@x.com", "Ama Owusu", ⟨2024, 8, 5⟩, 1, "", "", 2700, true⟩,
    ⟨"a@x.com_20240805", "a@x.com", "Kojo Mensah", ⟨2024, 8, 5⟩, 1, "", "", 3000, true⟩],
    rfl, rfl, ?_⟩
  decide

/-! ### Claim C7 -/

/-- C7: each participation row's `Participants` cell is split on commas, each
name stripped and resolved through the name-to-email map; resolved names each
contribute one record (with `participated = 1` downstream) and unresolved
names are silently dropped.  Concretely, `"Ama Owusu, Kojo Mensah"` with only
"Ama Owusu" in the map yields exactly one fact row. -/
theorem participation_split_resolve_drop :
    (∀ (df : List RawParticipationRow) (m : List (String × String))
        (row : RawParticipationRow), row ∈ df →
      ∀ (name email : String),
        name ∈ (pySplit row.Participants ',').map normalize_name →
        pyDictGet m name = some email → email ≠ "" →
        (row.Date, name, email) ∈ participationRecords df m) ∧
    (∀ (df : List RawParticipationRow) (m : List (String × String))
        (rec : String × String × String), rec ∈ participationRecords df m →
      ∃ row ∈ df, rec.1 = row.Date ∧
        rec.2.1 ∈ (pySplit row.Participants ',').map normalize_name ∧
        pyDictGet m rec.2.1 = some rec.2.2) ∧
    transform_participation [⟨"05-Aug-2024", "Ama Owusu, Kojo Mensah"⟩]
        [("Ama Owusu", "ama.owusu@example.com")]
      = Except.ok [⟨"ama.owusu@example.com_20240805", "ama.owusu@example.com",
          "Ama Owusu", ⟨2024, 8, 5⟩, 1⟩] := by
  refine ⟨?_, ?_, rfl⟩
  · intro df m row hrow name email hname hget hne
    unfold participationRecords
    refine List.mem_flatMap.mpr ⟨row, hrow, ?_⟩
    refine List.mem_filterMap.mpr ⟨name, hname, ?_⟩
    rw [hget]
    simp [hne]
  · intro df m rec hrec
    unfold participationRecords at hrec
    obtain ⟨row, hrow, hmem⟩ := List.mem_flatMap.mp hrec
    obtain ⟨name, hname, hf⟩ := List.mem_filterMap.mp hmem
    split at hf
    · next e hget =>
      by_cases he : e = ""
      · rw [if_pos he] at hf
        simp at hf
      · rw [if_neg he] at hf
        injection hf with hf
        subst hf
        exact ⟨row, hrow, rfl, hname, hget⟩
    · next hget => simp at hf

/-- Closed instance of C7's resolution clause: the resolved name is kept. -/
theorem participation_split_resolve_drop_witness :
    (("05-Aug-2024", "Ama Owusu", "ama.owusu@example.com") : String × String × String)
      ∈ participationRecords [⟨"05-Aug-2024", "Ama Owusu, Kojo Mensah"⟩]
          [("Ama Owusu", "ama.owusu@example.com")] :=
  participation_split_resolve_drop.1
    [⟨"05-Aug-2024", "Ama Owusu, Kojo Mensah"⟩]
    [("Ama Owusu", "ama.owusu@example.com")]
    ⟨"05-Aug-2024", "Ama Owusu, Kojo Mensah"⟩ (by simp)
    ("Ama Owusu") ("ama.owusu@example.com") (by decide) rfl (by decide)

/-! ### Claim C8 -/

theorem transformAttendanceRow_email {thr : Int} {r : RawAttendanceRow}
    {fr : FactAttendanceRow} (h : transformAttendanceRow thr r = some fr) :
    fr.email = normalize_email r.Email := by
  unfold transformAttendanceRow at h
  simp only [Option.bind_eq_bind, Option.bind_eq_some, Option.pure_def,
    Option.some.injEq] at h
  obtain ⟨d, hd, date, hdate, week, hweek, hfr⟩ := h
  subst hfr
  rfl

theorem assessRows_forall₂ :
    ∀ (l : List (String × String × Option Rat × String)) (out : List FactAssessmentRow),
      assessRows l = some out →
      List.Forall₂ (fun rec r => extractFirstNat rec.2.1 = some r.week_number ∧
        r.assessment_type = rec.2.2.2 ∧ r.score = rec.2.2.1 ∧
        r.email = normalize_email rec.1) l out := by
  intro l
  induction l with
  | nil =>
    intro out h
    simp only [assessRows, Option.some.injEq] at h
    subst h
    exact List.Forall₂.nil
  | cons rec rest ih =>
    intro out h
    obtain ⟨e, w, sc, ty⟩ := rec
    simp only [assessRows, Option.bind_eq_bind, Option.bind_eq_some, Option.pure_def,
      Option.some.injEq] at h
    obtain ⟨wn, hwn, out', hout', hout⟩ := h
    subst hout
    exact List.Forall₂.cons ⟨hwn, rfl, rfl, rfl⟩ (ih out' hout')

theorem pyDictGet_mem {m : List (String × String)} {k v : String}
    (h : pyDictGet m k = some v) : ∃ p ∈ m, p.2 = v := by
  unfold pyDictGet at h
  rw [Option.map_eq_some'] at h
  obtain ⟨p, hp, hv⟩ := h
  exact ⟨p, List.mem_reverse.mp (List.mem_of_find?_eq_some hp), hv⟩

theorem participationRecords_email_from_map {pdf : List RawParticipationRow}
    {m : List (String × String)} {rec : String × String × String}
    (h : rec ∈ participationRecords pdf m) : ∃ p ∈ m, p.2 = rec.2.2 := by
  unfold participationRecords at h
  obtain ⟨row, hrow, hmem⟩ := List.mem_flatMap.mp h
  obtain ⟨name, hname, hf⟩ := List.mem_filterMap.mp hmem
  split at hf
  · next e hget =>
    by_cases he : e = ""
    · rw [if_pos he] at hf
      simp at hf
    · rw [if_neg he] at hf
      injection hf with hf
      subst hf
      exact pyDictGet_mem hget
  · next hget => simp at hf

theorem participationFinish_emails :
    ∀ (recs : List (String × String × String)) (out : List FactParticipationRow),
      participationFinish recs = Except.ok out →
      ∀ r ∈ out, ∃ rec ∈ recs, r.email = rec.2.2 := by
  intro recs
  induction recs with
  | nil =>
    intro out h r hr
    simp only [participationFinish, Except.ok.injEq] at h
    subst h
    simp at hr
  | cons rec rest ih =>
    intro out h r hr
    obtain ⟨dateStr, name, email⟩ := rec
    simp only [participationFinish] at h
    rcases hp : parseDMonY dateStr with _ | d <;> rw [hp] at h
    · simp at h
    · rcases hfin : participationFinish rest with e | out' <;> rw [hfin] at h
      · simp at h
      · injection h with h
        subst h
        rcases List.mem_cons.mp hr with he | hm
        · subst he
          exact ⟨(dateStr, name, email), by simp, rfl⟩
        · obtain ⟨rec', hrec', hre⟩ := ih out' hfin r hm
          exact ⟨rec', List.mem_cons_of_mem _ hrec', hre⟩

theorem transform_participation_ok {pdf : List RawParticipationRow}
    {m : List (String × String)} {out : List FactParticipationRow}
    (h : transform_participation pdf m = Except.ok out) :
    participationFinish (participationRecords pdf m) = Except.ok out := by
  unfold transform_participation at h
  by_cases hrec : (participationRecords pdf m).isEmpty
  · rw [if_pos hrec] at h
    simp at h
  · rwa [if_neg hrec] at h

/-- C8: every email value in fact_attendance, fact_assessment and
fact_participation is lowercase with no leading or trailing whitespace; for
participation this holds because its emails are drawn from the name-to-email
map built over fact_attendance's already-normalized emails. -/
theorem all_fact_emails_normalized :
    (∀ (thr : Int) (df : List RawAttendanceRow) (out : List FactAttendanceRow),
      transform_zoom_attendance thr df = some out →
      ∀ r ∈ out, isNormalizedEmail r.email) ∧
    (∀ (labs quizzes : WideTable) (out : List FactAssessmentRow),
      transform_assessments labs quizzes = some out →
      ∀ r ∈ out, isNormalizedEmail r.email) ∧
    (∀ (thr : Int) (adf : List RawAttendanceRow) (att : List FactAttendanceRow)
        (pdf : List RawParticipationRow) (out : List FactParticipationRow),
      transform_zoom_attendance thr adf = some att →
      transform_participation pdf (create_name_email_mapping att) = Except.ok out →
      ∀ r ∈ out, isNormalizedEmail r.email) := by
  refine ⟨?_, ?_, ?_⟩
  · intro thr df out h r hr
    obtain ⟨raw, _, hS⟩ := forall₂_mem_right (transform_zoom_forall₂ thr df out h) hr
    rw [transformAttendanceRow_email hS]
    exact normalize_email_normalized _
  · intro labs quizzes out h r hr
    unfold transform_assessments at h
    obtain ⟨rec, _, hS⟩ := forall₂_mem_right (assessRows_forall₂ _ out h) hr
    rw [hS.2.2.2]
    exact normalize_email_normalized _
  · intro thr adf att pdf out hatt hpart r hr
    obtain ⟨rec, hrec, hre⟩ :=
      participationFinish_emails _ out (transform_participation_ok hpart) r hr
    obtain ⟨p, hp, hpe⟩ := participationRecords_email_from_map hrec
    obtain ⟨fa, hfa, hfp⟩ := List.mem_map.mp hp
    obtain ⟨raw, _, hS⟩ := forall₂_mem_right (transform_zoom_forall₂ thr adf att hatt) hfa
    rw [hre, ← hpe, ← hfp]
    simp only
    rw [transformAttendanceRow_email hS]
    exact normalize_email_normalized _

/-- Closed instance of C8 at a concrete run of all three transforms. -/
theorem all_fact_emails_normalized_witness :
    isNormalizedEmail ("a@x.com") ∧ isNormalizedEmail ("ama.owusu@example.com") := by
  constructor
  · exact all_fact_emails_normalized.1 30
      [⟨"Ama", " A@X.com ", "", "", "0:45:00", "05-Aug-2024.csv",
          "data/Week 1/05-Aug-2024.csv"⟩]
      [⟨"a@x.com_20240805", "a@x.com", "Ama", ⟨2024, 8, 5⟩, 1, "", "", 2700, true⟩]
      rfl
      ⟨"a@x.com_20240805", "a@x.com", "Ama", ⟨2024, 8, 5⟩, 1, "", "", 2700, true⟩
      (by simp)
  · exact all_fact_emails_normalized.2.2 30
      [⟨"Ama Owusu", "Ama.Owusu@Example.com", "", "", "0:45:00", "05-Aug-2024.csv",
          "data/Week 1/05-Aug-2024.csv"⟩]
      [⟨"ama.owusu@example.com_20240805", "ama.owusu@example.com", "Ama Owusu",
          ⟨2024, 8, 5⟩, 1, "", "", 2700, true⟩]
      [⟨"05-Aug-2024", "Ama Owusu, Kojo Mensah"⟩]
      [⟨"ama.owusu@example.com_20240805", "ama.owusu@example.com", "Ama Owusu",
          ⟨2024, 8, 5⟩, 1⟩]
      rfl rfl
      ⟨"ama.owusu@example.com_20240805", "ama.owusu@example.com", "Ama Owusu",
          ⟨2024, 8, 5⟩, 1⟩
      (by simp)

/-! ### Claim C6 -/

theorem melt_length (t : WideTable) : (melt t).length = t.cols.length * t.rows.length := by
  unfold melt
  rw [List.length_flatMap]
  rw [show List.length ∘ (fun j => t.rows.map fun r => (r.1, t.cols.getD j (""), r.2.getD j none))
      = fun _ => t.rows.length from funext fun j => by simp]
  rw [List.map_const', List.sum_replicate, List.length_range, smul_eq_mul]

theorem melt_week_mem {t : WideTable} {x : String × String × Option Rat}
    (h : x ∈ melt t) : x.2.1 ∈ t.cols := by
  unfold melt at h
  obtain ⟨j, hj, hx⟩ := List.mem_flatMap.mp h
  obtain ⟨r, hr, hxe⟩ := List.mem_map.mp hx
  subst hxe
  have hjlt : j < t.cols.length := List.mem_range.mp hj
  simp only
  rw [List.getD_eq_getElem _ _ hjlt]
  exact List.getElem_mem hjlt

theorem assessRows_isSome (l : List (String × String × Option Rat × String))
    (h : ∀ rec ∈ l, (extractFirstNat rec.2.1).isSome = true) :
    (assessRows l).isSome = true := by
  induction l with
  | nil => rfl
  | cons rec rest ih =>
    obtain ⟨e, w, sc, ty⟩ := rec
    have hw := h _ (List.mem_cons_self _ _)
    rw [Option.isSome_iff_exists] at hw
    obtain ⟨wn, hwn⟩ := hw
    have ht := ih (fun r hr => h r (List.mem_cons_of_mem _ hr))
    rw [Option.isSome_iff_exists] at ht
    obtain ⟨out', hout'⟩ := ht
    simp [assessRows, hwn, hout']

theorem assessRows_append :
    ∀ (l1 l2 : List (String × String × Option Rat × String))
      (o1 o2 : List FactAssessmentRow),
      assessRows l1 = some o1 → assessRows l2 = some o2 →
      assessRows (l1 ++ l2) = some (o1 ++ o2) := by
  intro l1
  induction l1 with
  | nil =>
    intro l2 o1 o2 h1 h2
    simp only [assessRows, Option.some.injEq] at h1
    subst h1
    simpa using h2
  | cons rec rest ih =>
    intro l2 o1 o2 h1 h2
    obtain ⟨e, w, sc, ty⟩ := rec
    simp only [assessRows, Option.bind_eq_bind, Option.bind_eq_some, Option.pure_def,
      Option.some.injEq] at h1
    obtain ⟨wn, hwn, out', hout', ho1⟩ := h1
    subst ho1
    rw [List.cons_append]
    simp [assessRows, hwn, ih l2 out' o2 hout' h2]

theorem forall₂_map_eq {α β γ : Type} {S : α → β → Prop} {f : α → γ} {g : β → γ}
    (hfg : ∀ a b, S a b → g b = f a) :
    ∀ {l : List α} {l' : List β}, List.Forall₂ S l l' → l'.map g = l.map f := by
  intro l l' h
  induction h with
  | nil => rfl
  | cons hab htl ih => simp [ih, hfg _ _ hab]

/-- C6: for two wide assessment sheets with the same learner count `N` and
the same week-column count `W` (and week labels carrying a digit, as week
labels do), the unpivot produces exactly `N * W * 2` fact rows — the labs
block first, every row tagged "Lab", then the quizzes block tagged "Quiz" —
and the score column of each block equals the melted input scores, so
missing scores survive as nulls rather than being dropped. -/
theorem assessment_unpivot_row_count (labs quizzes : WideTable) (N W : Nat)
    (hlr : labs.rows.length = N) (hlc : labs.cols.length = W)
    (hqr : quizzes.rows.length = N) (hqc : quizzes.cols.length = W)
    (hl : ∀ c ∈ labs.cols, (extractFirstNat c).isSome = true)
    (hq : ∀ c ∈ quizzes.cols, (extractFirstNat c).isSome = true) :
    ∃ out, transform_assessments labs quizzes = some out ∧
      out.length = N * W * 2 ∧
      ∃ labPart quizPart, out = labPart ++ quizPart ∧
        labPart.length = N * W ∧ quizPart.length = N * W ∧
        (∀ r ∈ labPart, r.assessment_type = "Lab") ∧
        (∀ r ∈ quizPart, r.assessment_type = "Quiz") ∧
        labPart.map (fun r => r.score) = (melt labs).map (fun x => x.2.2) ∧
        quizPart.map (fun r => r.score) = (melt quizzes).map (fun x => x.2.2) := by
  have hlab_ok : ∀ rec ∈ (melt labs).map (fun r => (r.1, r.2.1, r.2.2, "Lab")),
      (extractFirstNat rec.2.1).isSome = true := by
    intro rec hrec
    obtain ⟨x, hx, hxe⟩ := List.mem_map.mp hrec
    subst hxe
    exact hl _ (melt_week_mem hx)
  have hquiz_ok : ∀ rec ∈ (melt quizzes).map (fun r => (r.1, r.2.1, r.2.2, "Quiz")),
      (extractFirstNat rec.2.1).isSome = true := by
    intro rec hrec
    obtain ⟨x, hx, hxe⟩ := List.mem_map.mp hrec
    subst hxe
    exact hq _ (melt_week_mem hx)
  obtain ⟨o1, ho1⟩ := Option.isSome_iff_exists.mp (assessRows_isSome _ hlab_ok)
  obtain ⟨o2, ho2⟩ := Option.isSome_iff_exists.mp (assessRows_isSome _ hquiz_ok)
  have hf1 := assessRows_forall₂ _ _ ho1
  have hf2 := assessRows_forall₂ _ _ ho2
  have hlen1 : o1.length = N * W := by
    have hle := hf1.length_eq
    rw [List.length_map, melt_length, hlr, hlc] at hle
    rw [← hle, Nat.mul_comm]
  have hlen2 : o2.length = N * W := by
    have hle := hf2.length_eq
    rw [List.length_map, melt_length, hqr, hqc] at hle
    rw [← hle, Nat.mul_comm]
  refine ⟨o1 ++ o2, assessRows_append _ _ _ _ ho1 ho2, ?_, o1, o2, rfl, hlen1, hlen2,
    ?_, ?_, ?_, ?_⟩
  · rw [List.length_append, hlen1, hlen2]
    ring
  · intro r hr
    obtain ⟨rec, hrec, hS⟩ := forall₂_mem_right hf1 hr
    obtain ⟨x, _, hxe⟩ := List.mem_map.mp hrec
    subst hxe
    exact hS.2.1
  · intro r hr
    obtain ⟨rec, hrec, hS⟩ := forall₂_mem_right hf2 hr
    obtain ⟨x, _, hxe⟩ := List.mem_map.mp hrec
    subst hxe
    exact hS.2.1
  · rw [forall₂_map_eq (fun a b hS => hS.2.2.1) hf1, List.map_map]
    exact List.map_congr_left fun x _ => rfl
  · rw [forall₂_map_eq (fun a b hS => hS.2.2.1) hf2, List.map_map]
    exact List.map_congr_left fun x _ => rfl

/-- Closed instance of C6 at concrete two-column sheets with one learner
(and a missing lab score, which survives as a null). -/
theorem assessment_unpivot_row_count_witness :
    ∃ out, transform_assessments ⟨["Week 1", "Week 2"], [("A@x.com", [some 1, none])]⟩
        ⟨["Week 1", "Week 2"], [("A@x.com", [some 2, some 3])]⟩ = some out ∧
      out.length = 1 * 2 * 2 ∧
      ∃ labPart quizPart, out = labPart ++ quizPart ∧
        labPart.length = 1 * 2 ∧ quizPart.length = 1 * 2 ∧
        (∀ r ∈ labPart, r.assessment_type = "Lab") ∧
        (∀ r ∈ quizPart, r.assessment_type = "Quiz") ∧
        labPart.map (fun r => r.score)
          = (melt ⟨["Week 1", "Week 2"], [("A@x.com", [some 1, none])]⟩).map
              (fun x => x.2.2) ∧
        quizPart.map (fun r => r.score)
          = (melt ⟨["Week 1", "Week 2"], [("A@x.com", [some 2, some 3])]⟩).map
              (fun x => x.2.2) :=
  assessment_unpivot_row_count
    ⟨["Week 1", "Week 2"], [("A@x.com", [some 1, none])]⟩
    ⟨["Week 1", "Week 2"], [("A@x.com", [some 2, some 3])]⟩ 1 2
    rfl rfl rfl rfl (by decide) (by decide)

